import Mathlib

/-!
Verification of the manifest-based dataset synchronization subsystem of the
`dss` command line tool (`src/dss/dss/cli.py`): the `add`, `push` and `pull`
commands, the eligibility filter for `add`, and the human-readable size
formatter.  The Python code is shallowly embedded: YAML dictionaries become
association lists over `String` keys (`Dict`), the filesystem and the remote
host become explicit oracle records (`FsWorld`, `PushWorld`, `PullWorld`)
holding the answers the code would observe, and each command becomes a total
function returning `Except Unit` (`Except.error ()` models `sys.exit(1)`).
-/

namespace Dss

/-- A YAML/Python dictionary: an association list over string keys, in
insertion order, with unique keys in every state the program builds. -/
abbrev Dict (α : Type) := List (String × α)

/-- Python `d[k]` / `d.get(k)`: first binding of key `k`. -/
def dictFind {α : Type} : Dict α → String → Option α
  | [], _ => none
  | p :: rest, k => if p.1 = k then some p.2 else dictFind rest k

/-- Python `d[k] = v`: replace the first binding of `k` in place (keeping its
position), or append a fresh binding at the end. -/
def dictInsert {α : Type} : Dict α → String → α → Dict α
  | [], k, v => [(k, v)]
  | p :: rest, k, v => if p.1 = k then (k, v) :: rest else p :: dictInsert rest k v

/-- A scalar YAML value as stored in a dataset entry. -/
inductive Val where
  | str : String → Val
  | nat : Nat → Val
deriving DecidableEq

/-- A dataset entry: the per-file YAML mapping (`sha256`, `size_bytes`,
`size_human`, `uploaded`, `description`, any `remote@<id>` path fields, and
any legacy fields such as a per-file `uuid`). -/
abbrev Entry := Dict Val

/- ----------------------------------------------------------------------
`format_size` (cli.py lines 81-96).

The Python loop runs `unit` over B,K,M,G,T, returning `f"{size_bytes}{unit}"`
for the B unit (plain integer) and `f"{size_bytes:.1f}{unit}"` otherwise,
dividing `size_bytes` by 1024.0 between iterations, and falls through to
`f"{size_bytes:.1f}P"`.  The loop is unrolled here.  Division of a float by
1024 is exact, and an integer below 2^53 converts to float exactly, so the
float after k divisions is exactly n/1024^k and the guard
`size_bytes < 1024.0` after k divisions is exactly `n < 1024^(k+1)`; the
value is kept as the exact pair (n, 1024^k).  Python's `"%.1f"` renders the
correctly rounded (round-half-to-even) single decimal.
---------------------------------------------------------------------- -/

/-- Round `a / b` (with `b > 0`) to the nearest integer, ties to even:
the rounding CPython's `f"{x:.1f}"` applies. -/
def rheN (a b : Nat) : Nat :=
  let q := a / b
  let r := a % b
  if 2 * r < b then q
  else if b < 2 * r then q + 1
  else if q % 2 = 0 then q else q + 1

/-- `f"{x:.1f}"` for the exact nonnegative value `a / b`: one digit after the
decimal point, correctly rounded with ties to even. -/
def fmt1N (a b : Nat) : String :=
  let t := rheN (10 * a) b
  toString (t / 10) ++ "." ++ toString (t % 10)

/-- `format_size` (cli.py lines 81-96), with the `for unit in [...]` loop
unrolled and the exact value `n / 1024^k` carried as a numerator/denominator
pair. -/
def formatSize (n : Nat) : String :=
  if n < 1024 then toString n ++ "B"
  else if n < 1024 ^ 2 then fmt1N n 1024 ++ "K"
  else if n < 1024 ^ 3 then fmt1N n (1024 ^ 2) ++ "M"
  else if n < 1024 ^ 4 then fmt1N n (1024 ^ 3) ++ "G"
  else if n < 1024 ^ 5 then fmt1N n (1024 ^ 4) ++ "T"
  else fmt1N n (1024 ^ 5) ++ "P"

theorem fmt1N_shape (a b : Nat) :
    ∃ i d : Nat, d < 10 ∧ fmt1N a b = toString i ++ "." ++ toString d := by
  refine ⟨rheN (10 * a) b / 10, rheN (10 * a) b % 10, ?_, rfl⟩
  omega

/-- C7: the size formatter divides repeatedly by 1024 over the units
B,K,M,G,T,P; every value below 1024 is rendered as a plain integer followed
by `B`; every other unit is rendered with exactly one decimal digit; values
at petabyte scale or beyond keep formatting under `P`; and
`0 ↦ "0B"`, `1023 ↦ "1023B"`, `1024 ↦ "1.0K"`, `1073741824 ↦ "1.0G"`. -/
theorem formatSize_spec :
    (∀ n : Nat, n < 1024 → formatSize n = toString n ++ "B") ∧
    (∀ n : Nat, 1024 ≤ n → ∃ i d : Nat, d < 10 ∧
      ∃ u, u ∈ (["K", "M", "G", "T", "P"] : List String) ∧
        formatSize n = (toString i ++ "." ++ toString d) ++ u) ∧
    (∀ n : Nat, 1024 ^ 5 ≤ n → formatSize n = fmt1N n (1024 ^ 5) ++ "P") ∧
    formatSize 0 = "0B" ∧ formatSize 1023 = "1023B" ∧
    formatSize 1024 = "1.0K" ∧ formatSize 1073741824 = "1.0G" := by
  refine ⟨?_, ?_, ?_, by decide, by decide, by decide, by decide⟩
  · intro n hn
    simp [formatSize, hn]
  · intro n hn
    have hb : ¬ n < 1024 := by omega
    by_cases h2 : n < 1048576
    · obtain ⟨i, d, hd, hf⟩ := fmt1N_shape n 1024
      exact ⟨i, d, hd, "K", by simp, by simp [formatSize, hb, h2, hf]⟩
    · by_cases h3 : n < 1073741824
      · obtain ⟨i, d, hd, hf⟩ := fmt1N_shape n 1048576
        exact ⟨i, d, hd, "M", by simp, by simp [formatSize, hb, h2, h3, hf]⟩
      · by_cases h4 : n < 1099511627776
        · obtain ⟨i, d, hd, hf⟩ := fmt1N_shape n 1073741824
          exact ⟨i, d, hd, "G", by simp, by simp [formatSize, hb, h2, h3, h4, hf]⟩
        · by_cases h5 : n < 1125899906842624
          · obtain ⟨i, d, hd, hf⟩ := fmt1N_shape n 1099511627776
            exact ⟨i, d, hd, "T", by simp, by simp [formatSize, hb, h2, h3, h4, h5, hf]⟩
          · obtain ⟨i, d, hd, hf⟩ := fmt1N_shape n 1125899906842624
            exact ⟨i, d, hd, "P", by simp, by simp [formatSize, hb, h2, h3, h4, h5, hf]⟩
  · intro n hn
    have hn' : 1125899906842624 ≤ n := by norm_num at hn; exact hn
    have hb : ¬ n < 1024 := by omega
    have h2 : ¬ n < 1048576 := by omega
    have h3 : ¬ n < 1073741824 := by omega
    have h4 : ¬ n < 1099511627776 := by omega
    have h5 : ¬ n < 1125899906842624 := by omega
    simp [formatSize, hb, h2, h3, h4, h5]

/-- Witness for C7: the universally quantified parts instantiated at 7,
2048 and `1024^5` with the hypotheses discharged concretely. -/
theorem formatSize_spec_witness :
    formatSize 7 = toString 7 ++ "B" ∧
    (∃ i d : Nat, d < 10 ∧ ∃ u, u ∈ (["K", "M", "G", "T", "P"] : List String) ∧
      formatSize 2048 = (toString i ++ "." ++ toString d) ++ u) ∧
    formatSize (1024 ^ 5) = fmt1N (1024 ^ 5) (1024 ^ 5) ++ "P" :=
  ⟨formatSize_spec.1 7 (by norm_num),
   formatSize_spec.2.1 2048 (by norm_num),
   formatSize_spec.2.2.1 (1024 ^ 5) le_rfl⟩

/- ----------------------------------------------------------------------
Basic dictionary lemmas.
---------------------------------------------------------------------- -/

theorem dictFind_dictInsert_self {α : Type} (d : Dict α) (k : String) (v : α) :
    dictFind (dictInsert d k v) k = some v := by
  induction d with
  | nil => simp [dictInsert, dictFind]
  | cons p rest ih =>
    by_cases h : p.1 = k
    · simp [dictInsert, dictFind, h]
    · simp [dictInsert, dictFind, h, ih]

theorem dictFind_dictInsert_ne {α : Type} (d : Dict α) (k k' : String) (v : α)
    (h : k ≠ k') : dictFind (dictInsert d k v) k' = dictFind d k' := by
  induction d with
  | nil => simp [dictInsert, dictFind, h]
  | cons p rest ih =>
    by_cases hp : p.1 = k
    · simp [dictInsert, dictFind, hp, h]
    · simp only [dictInsert, dictFind, if_neg hp]
      by_cases hp' : p.1 = k'
      · simp [dictFind, hp']
      · simp [dictFind, hp', ih]

theorem dictInsert_dictInsert_same {α : Type} (d : Dict α) (k : String) (v : α) :
    dictInsert (dictInsert d k v) k v = dictInsert d k v := by
  induction d with
  | nil => simp [dictInsert]
  | cons p rest ih =>
    by_cases h : p.1 = k
    · simp [dictInsert, h]
    · simp [dictInsert, h, ih]

/- ----------------------------------------------------------------------
The `add` eligibility filter (cli.py lines 216-254).

The filesystem is an oracle `FsWorld`: `pathExists`, `isDir`, `isFile` and
`resolvedParent` record the answers `Path.exists()`, `Path.is_dir()`,
`Path.is_file()` and `Path.resolve().parent` would give for a path string.
`Path(filename).name` is the last `/`-separated component of the string and
is computed directly.
---------------------------------------------------------------------- -/

/-- The filesystem as observed by `add`. -/
structure FsWorld where
  pathExists : String → Bool
  isDir : String → Bool
  isFile : String → Bool
  resolvedParent : String → String
  sizeOf : String → Nat
  shaOf : String → String

/-- Split a character list at `/` separators. -/
def splitSlashAux : List Char → List Char → List (List Char)
  | [], acc => [acc.reverse]
  | c :: cs, acc =>
    if c = '/' then acc.reverse :: splitSlashAux cs []
    else splitSlashAux cs (c :: acc)

/-- `Path(p).name`: the final `/`-separated path component. -/
def pathName (p : String) : String := ⟨(splitSlashAux p.data []).getLastD []⟩

/-- `name.startswith('.')`: the first character is a dot. -/
def isHidden (s : String) : Bool :=
  match s.data with
  | c :: _ => c = '.'
  | [] => false

/-- The reason a candidate path is skipped by `add` (cli.py lines 216-254). -/
inductive RejectReason where
  | not_found
  | is_directory
  | hidden
  | not_regular
  | is_manifest
  | wrong_directory
deriving DecidableEq

/-- The eligibility filter of `add`, one candidate at a time (cli.py lines
218-254): `none` means the file survives into `valid_files`. -/
def classify (w : FsWorld) (manifestDir : String) (filename : String) :
    Option RejectReason :=
  if ¬ w.pathExists filename then some .not_found
  else if w.isDir filename then some .is_directory
  else if isHidden (pathName filename) then some .hidden
  else if ¬ w.isFile filename then some .not_regular
  else if pathName filename = "manifest.yml" then some .is_manifest
  else if w.resolvedParent filename ≠ manifestDir then some .wrong_directory
  else none

/-- The `valid_files` list built by `add`: surviving candidates, normalized
to their base name (cli.py lines 252-254). -/
def validFiles (w : FsWorld) (manifestDir : String) (filenames : List String) :
    List String :=
  filenames.filterMap
    (fun f => if classify w manifestDir f = none then some (pathName f) else none)

/-- C4: the eligibility checks fire in the fixed order `not_found`,
`is_directory`, `hidden`, `is_manifest`, `wrong_directory`, first match
winning; in particular a hidden path that does not exist is rejected with
reason `not_found`, not `hidden`. -/
theorem classify_order (w : FsWorld) (dir f : String) :
    (¬ w.pathExists f → classify w dir f = some .not_found) ∧
    (w.pathExists f → w.isDir f → classify w dir f = some .is_directory) ∧
    (w.pathExists f → ¬ w.isDir f → isHidden (pathName f) → classify w dir f = some .hidden) ∧
    (w.pathExists f → ¬ w.isDir f → ¬ isHidden (pathName f) →
      w.isFile f → pathName f = "manifest.yml" →
      classify w dir f = some .is_manifest) ∧
    (w.pathExists f → ¬ w.isDir f → ¬ isHidden (pathName f) →
      w.isFile f → pathName f ≠ "manifest.yml" → w.resolvedParent f ≠ dir →
      classify w dir f = some .wrong_directory) ∧
    (¬ w.pathExists f → isHidden (pathName f) →
      classify w dir f ≠ some .hidden) := by
  refine ⟨?_, ?_, ?_, ?_, ?_, ?_⟩
  · intro h; simp [classify, h]
  · intro h1 h2; simp [classify, h1, h2]
  · intro h1 h2 h3; simp [classify, h1, h2, h3]
  · intro h1 h2 h3 h4 h5
    rw [h5] at h3
    simp [classify, h1, h2, h3, h4, h5]
  · intro h1 h2 h3 h4 h5 h6; simp [classify, h1, h2, h3, h4, h5, h6]
  · intro h _; simp [classify, h]

/-- Witness for C4: a hidden name under a directory, reported as absent by
the filesystem, is classified `not_found` and not `hidden`. -/
theorem classify_order_witness :
    classify ⟨fun _ => false, fun _ => false, fun _ => false,
              fun _ => "/home", fun _ => 0, fun _ => ""⟩ "/home" "sub/.secret"
      = some RejectReason.not_found ∧
    classify ⟨fun _ => false, fun _ => false, fun _ => false,
              fun _ => "/home", fun _ => 0, fun _ => ""⟩ "/home" "sub/.secret"
      ≠ some RejectReason.hidden :=
  ⟨(classify_order ⟨fun _ => false, fun _ => false, fun _ => false,
      fun _ => "/home", fun _ => 0, fun _ => ""⟩ "/home" "sub/.secret").1
    (by decide),
   (classify_order ⟨fun _ => false, fun _ => false, fun _ => false,
      fun _ => "/home", fun _ => 0, fun _ => ""⟩ "/home" "sub/.secret").2.2.2.2.2
    (by decide) (by decide)⟩

/- ----------------------------------------------------------------------
The manifest (manifest.yml) and the `add` command (cli.py lines 190-332).
---------------------------------------------------------------------- -/

/-- The loaded manifest: the `manifest_uuid` top-level key (absent on legacy
manifests), the `datasets` mapping, and the `remote@<id>` profile keys. -/
structure Manifest where
  manifest_uuid : Option String
  datasets : Dict Entry
  remotes : Dict (Dict Val)

/-- The entry mutation for a changed file (cli.py lines 302-307):
`dict.update` with keys `sha256`, `size_bytes`, `size_human`, `uploaded`,
in that order. -/
def entryUpdate (e : Entry) (sha : String) (size : Nat) (now : String) : Entry :=
  dictInsert (dictInsert (dictInsert (dictInsert e
    "sha256" (.str sha))
    "size_bytes" (.nat size))
    "size_human" (.str (formatSize size)))
    "uploaded" (.str now)

/-- A fresh entry for a new file (cli.py lines 311-317). -/
def newEntry (sha : String) (size : Nat) (now : String) : Entry :=
  [("sha256", .str sha), ("size_bytes", .nat size),
   ("size_human", .str (formatSize size)), ("uploaded", .str now),
   ("description", .str "")]

/-- The stored digest of dataset `name`: `entry.get("sha256", "")`
(cli.py line 293); an absent entry contributes the `""` default. -/
def entrySha (ds : Dict Entry) (name : String) : Val :=
  ((dictFind ds name).map (fun e => (dictFind e "sha256").getD (.str ""))).getD
    (.str "")

/-- One iteration of the `add` loop (cli.py lines 280-319) on one normalized
filename. -/
def addFile (w : FsWorld) (now : String) (ds : Dict Entry) (name : String) :
    Dict Entry × Nat × Nat × Nat :=
  let size := w.sizeOf name
  let sha := w.shaOf name
  match dictFind ds name with
  | some e =>
    if Val.str sha = (dictFind e "sha256").getD (.str "") then (ds, 0, 0, 1)
    else (dictInsert ds name (entryUpdate e sha size now), 0, 1, 0)
  | none => (dictInsert ds name (newEntry sha size now), 1, 0, 0)

/-- The `add` loop over `valid_files`, threading the datasets mapping and the
added/updated/unchanged counters (cli.py lines 260-319). -/
def addLoop (w : FsWorld) (now : String) :
    Dict Entry → List String → Dict Entry × Nat × Nat × Nat
  | ds, [] => (ds, 0, 0, 0)
  | ds, name :: rest =>
    let r1 := addFile w now ds name
    let r2 := addLoop w now r1.1 rest
    (r2.1, r1.2.1 + r2.2.1, r1.2.2.1 + r2.2.2.1, r1.2.2.2 + r2.2.2.2)

/-- The observable result of a non-fatal `add` run. -/
structure AddResult where
  manifest_uuid : String
  datasets : Dict Entry
  added : Nat
  updated : Nat
  unchanged : Nat
  wrote : Bool
  exitCode : Nat
deriving DecidableEq

/-- The `add` command (cli.py lines 190-332) on a loaded manifest.  `newUuid`
is the UUID `uuid.uuid4()` would produce and `now` the current timestamp;
`Except.error ()` models `sys.exit(1)`.  The manifest file is rewritten iff
`wrote` (cli.py lines 321-324). -/
def addM (w : FsWorld) (manifestDir : String) (m : Manifest)
    (filenames : List String) (newUuid now : String) : Except Unit AddResult :=
  let valid := validFiles w manifestDir filenames
  if valid = [] then .error ()
  else
    let res := addLoop w now m.datasets valid
    .ok { manifest_uuid := m.manifest_uuid.getD newUuid, datasets := res.1,
          added := res.2.1, updated := res.2.2.1, unchanged := res.2.2.2,
          wrote := decide (0 < res.2.1) || decide (0 < res.2.2.1),
          exitCode := 0 }

/- ----------------------------------------------------------------------
Lemmas about the `add` loop.
---------------------------------------------------------------------- -/

theorem entryUpdate_find_sha (e : Entry) (s : String) (z : Nat) (t : String) :
    dictFind (entryUpdate e s z t) "sha256" = some (.str s) := by
  unfold entryUpdate
  rw [dictFind_dictInsert_ne _ _ _ _ (by decide),
      dictFind_dictInsert_ne _ _ _ _ (by decide),
      dictFind_dictInsert_ne _ _ _ _ (by decide),
      dictFind_dictInsert_self]

theorem entryUpdate_find_fields (e : Entry) (s : String) (z : Nat) (t : String) :
    dictFind (entryUpdate e s z t) "size_bytes" = some (.nat z) ∧
    dictFind (entryUpdate e s z t) "size_human" = some (.str (formatSize z)) ∧
    dictFind (entryUpdate e s z t) "uploaded" = some (.str t) := by
  unfold entryUpdate
  refine ⟨?_, ?_, ?_⟩
  · rw [dictFind_dictInsert_ne _ _ _ _ (by decide),
        dictFind_dictInsert_ne _ _ _ _ (by decide), dictFind_dictInsert_self]
  · rw [dictFind_dictInsert_ne _ _ _ _ (by decide), dictFind_dictInsert_self]
  · rw [dictFind_dictInsert_self]

theorem entryUpdate_find_ne (e : Entry) (s : String) (z : Nat) (t : String)
    (k : String) (h1 : k ≠ "sha256") (h2 : k ≠ "size_bytes")
    (h3 : k ≠ "size_human") (h4 : k ≠ "uploaded") :
    dictFind (entryUpdate e s z t) k = dictFind e k := by
  unfold entryUpdate
  rw [dictFind_dictInsert_ne _ _ _ _ (Ne.symm h4),
      dictFind_dictInsert_ne _ _ _ _ (Ne.symm h3),
      dictFind_dictInsert_ne _ _ _ _ (Ne.symm h2),
      dictFind_dictInsert_ne _ _ _ _ (Ne.symm h1)]

theorem addFile_find_ne (w : FsWorld) (now : String) (ds : Dict Entry)
    (h name : String) (hne : h ≠ name) :
    dictFind (addFile w now ds h).1 name = dictFind ds name := by
  unfold addFile
  cases hf : dictFind ds h with
  | none => simp [dictFind_dictInsert_ne _ _ _ _ hne]
  | some e =>
    by_cases hsha : Val.str (w.shaOf h) = (dictFind e "sha256").getD (.str "")
    · simp [hsha]
    · simp [hsha, dictFind_dictInsert_ne _ _ _ _ hne]

/-- A name whose stored digest equals the computed one is never touched by
the rest of the loop. -/
theorem addLoop_find_unchanged (w : FsWorld) (now : String)
    (files : List String) :
    ∀ ds name e, dictFind ds name = some e →
    (dictFind e "sha256").getD (.str "") = Val.str (w.shaOf name) →
    dictFind (addLoop w now ds files).1 name = some e := by
  induction files with
  | nil => intro ds name e he _; simpa [addLoop] using he
  | cons h rest ih =>
    intro ds name e he hsha
    by_cases heq : h = name
    · subst heq
      have hfile : (addFile w now ds h).1 = ds := by
        unfold addFile
        simp [he, hsha.symm]
      simp only [addLoop, hfile]
      exact ih ds h e he hsha
    · have hfind := addFile_find_ne w now ds h name heq
      simp only [addLoop]
      exact ih _ name e (hfind.trans he ▸ (by rw [hfind, he])) hsha

/-- When every processed file's stored digest matches the computed one, the
loop leaves the datasets mapping untouched and counts them all unchanged. -/
theorem addLoop_all_unchanged (w : FsWorld) (now : String)
    (files : List String) :
    ∀ ds, (∀ n ∈ files, ∃ e, dictFind ds n = some e ∧
      (dictFind e "sha256").getD (.str "") = Val.str (w.shaOf n)) →
    addLoop w now ds files = (ds, 0, 0, files.length) := by
  induction files with
  | nil => intro ds _; simp [addLoop]
  | cons h rest ih =>
    intro ds hall
    obtain ⟨e, he, hsha⟩ := hall h (List.mem_cons_self h rest)
    have hfile : addFile w now ds h = (ds, 0, 0, 1) := by
      unfold addFile
      simp [he, hsha.symm]
    have hrest := ih ds (fun n hn => hall n (List.mem_cons_of_mem h hn))
    simp [addLoop, hfile, hrest, Nat.add_comm]

/-- A name present with a differing stored digest ends the loop with exactly
the four-field update applied to its original entry. -/
theorem addLoop_find_updated (w : FsWorld) (now : String)
    (files : List String) :
    ∀ ds name e, name ∈ files → dictFind ds name = some e →
    (dictFind e "sha256").getD (.str "") ≠ Val.str (w.shaOf name) →
    dictFind (addLoop w now ds files).1 name =
      some (entryUpdate e (w.shaOf name) (w.sizeOf name) now) := by
  induction files with
  | nil => intro _ _ _ hmem; cases hmem
  | cons h rest ih =>
    intro ds name e hmem he hsha
    by_cases heq : h = name
    · subst heq
      have hne : Val.str (w.shaOf h) ≠ (dictFind e "sha256").getD (Val.str "") :=
        fun hc => hsha hc.symm
      have hfile : (addFile w now ds h).1 =
          dictInsert ds h (entryUpdate e (w.shaOf h) (w.sizeOf h) now) := by
        unfold addFile
        simp [he, hne]
      simp only [addLoop, hfile]
      exact addLoop_find_unchanged w now rest _ h _
        (dictFind_dictInsert_self ds h _)
        (by rw [entryUpdate_find_sha]; rfl)
    · have hmem' : name ∈ rest := by
        cases hmem with
        | head => exact absurd rfl heq
        | tail _ hm => exact hm
      have hfind := addFile_find_ne w now ds h name heq
      simp only [addLoop]
      exact ih _ name e hmem' (by rw [hfind, he]) hsha

/-- Fields outside `sha256`/`size_bytes`/`size_human`/`uploaded` of a
pre-existing entry survive the whole loop unchanged. -/
theorem addLoop_frame (w : FsWorld) (now : String) (files : List String) :
    ∀ ds name e k, dictFind ds name = some e →
    k ≠ "sha256" → k ≠ "size_bytes" → k ≠ "size_human" → k ≠ "uploaded" →
    ∃ e2, dictFind (addLoop w now ds files).1 name = some e2 ∧
      dictFind e2 k = dictFind e k := by
  induction files with
  | nil => intro ds name e k he _ _ _ _; exact ⟨e, by simpa [addLoop] using he, rfl⟩
  | cons h rest ih =>
    intro ds name e k he hk1 hk2 hk3 hk4
    by_cases heq : h = name
    · subst heq
      by_cases hsha : Val.str (w.shaOf h) = (dictFind e "sha256").getD (.str "")
      · have hfile : (addFile w now ds h).1 = ds := by
          unfold addFile; simp [he, hsha]
        simp only [addLoop, hfile]
        exact ih ds h e k he hk1 hk2 hk3 hk4
      · have hfile : (addFile w now ds h).1 =
            dictInsert ds h (entryUpdate e (w.shaOf h) (w.sizeOf h) now) := by
          unfold addFile; simp [he, hsha]
        simp only [addLoop, hfile]
        obtain ⟨e2, he2, hke⟩ := ih _ h
          (entryUpdate e (w.shaOf h) (w.sizeOf h) now) k
          (dictFind_dictInsert_self ds h _) hk1 hk2 hk3 hk4
        exact ⟨e2, he2, by rw [hke, entryUpdate_find_ne _ _ _ _ _ hk1 hk2 hk3 hk4]⟩
    · have hfind := addFile_find_ne w now ds h name heq
      simp only [addLoop]
      exact ih _ name e k (by rw [hfind, he]) hk1 hk2 hk3 hk4

/-- A dataset name whose entry is present and whose stored digest equals the
digest computed for the file: the condition of the unchanged branch
(cli.py lines 291-295). -/
def entryMatches (w : FsWorld) (ds : Dict Entry) (n : String) : Bool :=
  match dictFind ds n with
  | some e => decide ((dictFind e "sha256").getD (.str "") = Val.str (w.shaOf n))
  | none => false

/-- In any run, mixed or not, the `unchanged` counter is at least the number
of processed occurrences of files whose original stored digest matches the
computed one (a changed file's later duplicate occurrences may add more). -/
theorem addLoop_unchanged_ge (w : FsWorld) (now : String)
    (files : List String) :
    ∀ ds, files.countP (entryMatches w ds) ≤ (addLoop w now ds files).2.2.2 := by
  induction files with
  | nil => intro ds; simp [addLoop]
  | cons h rest ih =>
    intro ds
    by_cases hm : entryMatches w ds h = true
    · obtain ⟨e, he, hsha⟩ : ∃ e, dictFind ds h = some e ∧
          (dictFind e "sha256").getD (.str "") = Val.str (w.shaOf h) := by
        unfold entryMatches at hm
        cases hf : dictFind ds h with
        | none => rw [hf] at hm; exact absurd hm (by simp)
        | some e => rw [hf] at hm; exact ⟨e, rfl, by simpa using hm⟩
      have hc : Val.str (w.shaOf h) =
          (dictFind e "sha256").getD (.str "") := hsha.symm
      have hfile : addFile w now ds h = (ds, 0, 0, 1) := by
        simp [addFile, he, hc]
      have h1 := ih ds
      simp [addLoop, hfile, List.countP_cons, hm]
      omega
    · have hmono : rest.countP (entryMatches w ds) ≤
          rest.countP (entryMatches w (addFile w now ds h).1) := by
        refine List.countP_mono_left fun n hn hp => ?_
        by_cases heq : h = n
        · subst heq; exact absurd hp hm
        · unfold entryMatches at hp ⊢
          rw [addFile_find_ne w now ds h n heq]
          exact hp
      have h1 := ih (addFile w now ds h).1
      simp [addLoop, List.countP_cons, hm]
      omega

/- ----------------------------------------------------------------------
Claims about `add`.
---------------------------------------------------------------------- -/

/-- C5: in any `add` run, mixed or not, a processed file whose digest
matches the stored one takes the unchanged branch (no mutation, counted
unchanged — counters `(0, 0, 1)` for that iteration) and its entry is
bytewise unmodified at the end of the run; the unchanged counter covers
every such file; and when every processed file is unchanged the datasets
mapping is untouched, the manifest is not rewritten, and a second identical
invocation reports every file unchanged again with no rewrite. -/
theorem add_unchanged_spec :
    (∀ (w : FsWorld) (now : String) (ds : Dict Entry) (name : String)
       (e : Entry),
      dictFind ds name = some e →
      (dictFind e "sha256").getD (.str "") = Val.str (w.shaOf name) →
      addFile w now ds name = (ds, 0, 0, 1)) ∧
    (∀ (w : FsWorld) (dir : String) (m : Manifest) (filenames : List String)
       (newUuid now : String) (r : AddResult) (name : String) (e : Entry),
      addM w dir m filenames newUuid now = .ok r →
      dictFind m.datasets name = some e →
      (dictFind e "sha256").getD (.str "") = Val.str (w.shaOf name) →
      dictFind r.datasets name = some e) ∧
    (∀ (w : FsWorld) (dir : String) (m : Manifest) (filenames : List String)
       (newUuid now : String) (r : AddResult),
      addM w dir m filenames newUuid now = .ok r →
      (validFiles w dir filenames).countP (entryMatches w m.datasets) ≤
        r.unchanged) ∧
    (∀ (w : FsWorld) (dir : String) (m : Manifest) (filenames : List String)
       (newUuid now : String) (r : AddResult),
      addM w dir m filenames newUuid now = .ok r →
      (∀ n ∈ validFiles w dir filenames, ∃ e,
        dictFind m.datasets n = some e ∧
        (dictFind e "sha256").getD (.str "") = Val.str (w.shaOf n)) →
      r.datasets = m.datasets ∧ r.added = 0 ∧ r.updated = 0 ∧
      r.unchanged = (validFiles w dir filenames).length ∧ r.wrote = false ∧
      ∀ u2 t2, ∃ r2, addM w dir m filenames u2 t2 = .ok r2 ∧
        r2.datasets = m.datasets ∧ r2.added = 0 ∧ r2.updated = 0 ∧
        r2.unchanged = (validFiles w dir filenames).length ∧
        r2.wrote = false) := by
  refine ⟨?_, ?_, ?_, ?_⟩
  · intro w now ds name e he hmatch
    have hc : Val.str (w.shaOf name) =
        (dictFind e "sha256").getD (.str "") := hmatch.symm
    simp [addFile, he, hc]
  · intro w dir m filenames newUuid now r name e hok he hmatch
    simp only [addM] at hok
    split at hok
    · exact absurd hok (by simp)
    · simp only [Except.ok.injEq] at hok
      subst hok
      exact addLoop_find_unchanged w now _ m.datasets name e he hmatch
  · intro w dir m filenames newUuid now r hok
    simp only [addM] at hok
    split at hok
    · exact absurd hok (by simp)
    · simp only [Except.ok.injEq] at hok
      subst hok
      exact addLoop_unchanged_ge w now _ m.datasets
  · intro w dir m filenames newUuid now r hok hall
    have hloop := addLoop_all_unchanged w now (validFiles w dir filenames)
      m.datasets hall
    simp only [addM] at hok
    split at hok
    · exact absurd hok (by simp)
    · rename_i hvalid
      rw [hloop] at hok
      simp only [Except.ok.injEq] at hok
      subst hok
      refine ⟨rfl, rfl, rfl, rfl, rfl, ?_⟩
      intro u2 t2
      have hloop2 := addLoop_all_unchanged w t2 (validFiles w dir filenames)
        m.datasets hall
      refine ⟨{ manifest_uuid := m.manifest_uuid.getD u2,
                datasets := m.datasets, added := 0, updated := 0,
                unchanged := (validFiles w dir filenames).length,
                wrote := false, exitCode := 0 }, ?_, rfl, rfl, rfl, rfl, rfl⟩
      simp [addM, if_neg hvalid, hloop2]

/-- Witness for C5: a mixed run (`a.txt` unchanged, `b.txt` changed) leaves
the matching file's entry unmodified and counts it unchanged while the other
file is updated; a single unchanged iteration returns counters `(0,0,1)`;
and an all-unchanged run does not rewrite the manifest. -/
theorem add_unchanged_spec_witness :
    (∃ r, addM ⟨fun _ => true, fun _ => false, fun _ => true, fun _ => "/d",
                fun _ => 3, fun n => if n = "a.txt" then "abc" else "new"⟩ "/d"
        ⟨some "mid", [("a.txt", [("sha256", Val.str "abc")]),
                      ("b.txt", [("sha256", Val.str "old")])], []⟩
        ["a.txt", "b.txt"] "nu" "t0" = .ok r ∧
      r.updated = 1 ∧ r.wrote = true ∧
      dictFind r.datasets "a.txt" = some [("sha256", Val.str "abc")] ∧
      (validFiles ⟨fun _ => true, fun _ => false, fun _ => true,
          fun _ => "/d", fun _ => 3,
          fun n => if n = "a.txt" then "abc" else "new"⟩ "/d"
          ["a.txt", "b.txt"]).countP
        (entryMatches ⟨fun _ => true, fun _ => false, fun _ => true,
          fun _ => "/d", fun _ => 3,
          fun n => if n = "a.txt" then "abc" else "new"⟩
          [("a.txt", [("sha256", Val.str "abc")]),
           ("b.txt", [("sha256", Val.str "old")])]) ≤ r.unchanged) ∧
    addFile ⟨fun _ => true, fun _ => false, fun _ => true, fun _ => "/d",
             fun _ => 3, fun _ => "abc"⟩ "t0"
        [("f.txt", [("sha256", Val.str "abc")])] "f.txt"
      = ([("f.txt", [("sha256", Val.str "abc")])], 0, 0, 1) ∧
    (∃ r2, addM ⟨fun _ => true, fun _ => false, fun _ => true, fun _ => "/d",
                 fun _ => 3, fun _ => "abc"⟩ "/d"
        ⟨some "mid", [("f.txt", [("sha256", Val.str "abc")])], []⟩
        ["f.txt"] "nu" "t0" = .ok r2 ∧
      r2.datasets = [("f.txt", [("sha256", Val.str "abc")])] ∧
      r2.wrote = false) := by
  refine ⟨?_, ?_, ?_⟩
  · have hfind := add_unchanged_spec.2.1
      ⟨fun _ => true, fun _ => false, fun _ => true, fun _ => "/d",
       fun _ => 3, fun n => if n = "a.txt" then "abc" else "new"⟩ "/d"
      ⟨some "mid", [("a.txt", [("sha256", Val.str "abc")]),
                    ("b.txt", [("sha256", Val.str "old")])], []⟩
      ["a.txt", "b.txt"] "nu" "t0"
      ⟨"mid", [("a.txt", [("sha256", Val.str "abc")]),
               ("b.txt", [("sha256", Val.str "new"), ("size_bytes", Val.nat 3),
                          ("size_human", Val.str "3B"),
                          ("uploaded", Val.str "t0")])], 0, 1, 1, true, 0⟩
      "a.txt" [("sha256", Val.str "abc")] rfl rfl (by decide)
    have hcnt := add_unchanged_spec.2.2.1
      ⟨fun _ => true, fun _ => false, fun _ => true, fun _ => "/d",
       fun _ => 3, fun n => if n = "a.txt" then "abc" else "new"⟩ "/d"
      ⟨some "mid", [("a.txt", [("sha256", Val.str "abc")]),
                    ("b.txt", [("sha256", Val.str "old")])], []⟩
      ["a.txt", "b.txt"] "nu" "t0"
      ⟨"mid", [("a.txt", [("sha256", Val.str "abc")]),
               ("b.txt", [("sha256", Val.str "new"), ("size_bytes", Val.nat 3),
                          ("size_human", Val.str "3B"),
                          ("uploaded", Val.str "t0")])], 0, 1, 1, true, 0⟩
      rfl
    exact ⟨_, rfl, rfl, rfl, hfind, hcnt⟩
  · exact add_unchanged_spec.1
      ⟨fun _ => true, fun _ => false, fun _ => true, fun _ => "/d",
       fun _ => 3, fun _ => "abc"⟩ "t0"
      [("f.txt", [("sha256", Val.str "abc")])] "f.txt"
      [("sha256", Val.str "abc")] rfl (by decide)
  · obtain ⟨h1, _, _, _, h5, _⟩ := add_unchanged_spec.2.2.2
      ⟨fun _ => true, fun _ => false, fun _ => true, fun _ => "/d",
       fun _ => 3, fun _ => "abc"⟩ "/d"
      ⟨some "mid", [("f.txt", [("sha256", Val.str "abc")])], []⟩
      ["f.txt"] "nu" "t0"
      ⟨"mid", [("f.txt", [("sha256", Val.str "abc")])], 0, 0, 1, false, 0⟩
      rfl
      (by intro n hn
          simp [validFiles, classify, pathName, splitSlashAux, isHidden] at hn
          subst hn
          exact ⟨[("sha256", Val.str "abc")], rfl, rfl⟩)
    exact ⟨_, rfl, h1, h5⟩

/-- C6: an `add` of a changed file overwrites exactly `sha256`,
`size_bytes`, `size_human` and `uploaded` in that dataset entry; every other
field (description, `remote@<id>` paths, legacy fields) is preserved. -/
theorem add_updated_frame (w : FsWorld) (dir : String) (m : Manifest)
    (filenames : List String) (newUuid now : String) (r : AddResult)
    (name : String) (e : Entry)
    (hok : addM w dir m filenames newUuid now = .ok r)
    (hmem : name ∈ validFiles w dir filenames)
    (he : dictFind m.datasets name = some e)
    (hsha : (dictFind e "sha256").getD (.str "") ≠ Val.str (w.shaOf name)) :
    ∃ e2, dictFind r.datasets name = some e2 ∧
      dictFind e2 "sha256" = some (.str (w.shaOf name)) ∧
      dictFind e2 "size_bytes" = some (.nat (w.sizeOf name)) ∧
      dictFind e2 "size_human" = some (.str (formatSize (w.sizeOf name))) ∧
      dictFind e2 "uploaded" = some (.str now) ∧
      ∀ k, k ≠ "sha256" → k ≠ "size_bytes" → k ≠ "size_human" →
        k ≠ "uploaded" → dictFind e2 k = dictFind e k := by
  simp only [addM] at hok
  split at hok
  · exact absurd hok (by simp)
  · simp only [Except.ok.injEq] at hok
    subst hok
    refine ⟨entryUpdate e (w.shaOf name) (w.sizeOf name) now, ?_, ?_, ?_, ?_,
            ?_, ?_⟩
    · exact addLoop_find_updated w now _ m.datasets name e hmem he hsha
    · exact entryUpdate_find_sha e _ _ _
    · exact (entryUpdate_find_fields e _ _ _).1
    · exact (entryUpdate_find_fields e _ _ _).2.1
    · exact (entryUpdate_find_fields e _ _ _).2.2
    · intro k hk1 hk2 hk3 hk4
      exact entryUpdate_find_ne e _ _ _ k hk1 hk2 hk3 hk4

/-- Witness for C6: an entry with a stale digest and extra fields gets
exactly the four fields overwritten, the description and remote path
fields surviving. -/
theorem add_updated_frame_witness :
    ∃ r, addM ⟨fun _ => true, fun _ => false, fun _ => true, fun _ => "/d",
               fun _ => 5, fun _ => "new"⟩ "/d"
        ⟨some "mid", [("f.txt", [("sha256", Val.str "old"),
                                 ("description", Val.str "keep"),
                                 ("remote@1", Val.str "mid/f.txt")])], []⟩
        ["f.txt"] "nu" "t1" = .ok r ∧
      ∃ e2, dictFind r.datasets "f.txt" = some e2 ∧
        dictFind e2 "sha256" = some (Val.str "new") ∧
        dictFind e2 "description" = some (Val.str "keep") ∧
        dictFind e2 "remote@1" = some (Val.str "mid/f.txt") := by
  obtain ⟨e2, h1, h2, _, _, _, hfr⟩ := add_updated_frame
    ⟨fun _ => true, fun _ => false, fun _ => true, fun _ => "/d",
     fun _ => 5, fun _ => "new"⟩ "/d"
    ⟨some "mid", [("f.txt", [("sha256", Val.str "old"),
                             ("description", Val.str "keep"),
                             ("remote@1", Val.str "mid/f.txt")])], []⟩
    ["f.txt"] "nu" "t1" _ "f.txt"
    [("sha256", Val.str "old"), ("description", Val.str "keep"),
     ("remote@1", Val.str "mid/f.txt")]
    rfl (by decide) rfl (by decide)
  refine ⟨_, rfl, e2, h1, h2, ?_, ?_⟩
  · rw [hfr "description" (by decide) (by decide) (by decide) (by decide)]
    rfl
  · rw [hfr "remote@1" (by decide) (by decide) (by decide) (by decide)]
    rfl

/-- C10: `add` on a legacy manifest with every valid file unchanged sets the
freshly generated identifier on the in-memory manifest but does not rewrite
the manifest file, so the identifier is not persisted. -/
theorem add_legacy_uuid_in_memory_only (w : FsWorld) (dir : String)
    (m : Manifest) (filenames : List String) (newUuid now : String)
    (r : AddResult)
    (hnone : m.manifest_uuid = none)
    (hok : addM w dir m filenames newUuid now = .ok r)
    (hall : ∀ n ∈ validFiles w dir filenames, ∃ e,
      dictFind m.datasets n = some e ∧
      (dictFind e "sha256").getD (.str "") = Val.str (w.shaOf n)) :
    r.manifest_uuid = newUuid ∧ r.wrote = false := by
  have hloop := addLoop_all_unchanged w now (validFiles w dir filenames)
    m.datasets hall
  simp only [addM] at hok
  split at hok
  · exact absurd hok (by simp)
  · rw [hloop] at hok
    simp only [Except.ok.injEq] at hok
    subst hok
    simp [hnone]

/-- Witness for C10: a legacy manifest, one unchanged file; the generated
identifier is set in memory, nothing is written. -/
theorem add_legacy_uuid_in_memory_only_witness :
    ∃ r, addM ⟨fun _ => true, fun _ => false, fun _ => true, fun _ => "/d",
               fun _ => 3, fun _ => "abc"⟩ "/d"
        ⟨none, [("f.txt", [("sha256", Val.str "abc")])], []⟩
        ["f.txt"] "fresh-id" "t0" = .ok r ∧
      r.manifest_uuid = "fresh-id" ∧ r.wrote = false := by
  obtain ⟨h1, h2⟩ := add_legacy_uuid_in_memory_only
    ⟨fun _ => true, fun _ => false, fun _ => true, fun _ => "/d",
     fun _ => 3, fun _ => "abc"⟩ "/d"
    ⟨none, [("f.txt", [("sha256", Val.str "abc")])], []⟩
    ["f.txt"] "fresh-id" "t0"
    ⟨"fresh-id", [("f.txt", [("sha256", Val.str "abc")])], 0, 0, 1, false, 0⟩
    rfl rfl
    (by intro n hn
        simp [validFiles, classify, pathName, splitSlashAux, isHidden] at hn
        subst hn
        exact ⟨[("sha256", Val.str "abc")], rfl, rfl⟩)
  exact ⟨_, rfl, h1, h2⟩

/- ----------------------------------------------------------------------
The `push` command (cli.py lines 490-628).

The remote host is an oracle `PushWorld` recording, per selected filename,
whether the local file exists, the exit status of the `ssh ... mkdir -p`
command, and the exit status of the `rsync` transfer.
---------------------------------------------------------------------- -/

/-- The environment a `push` run observes, per filename. -/
structure PushWorld where
  localExists : String → Bool
  mkdirExit : String → Nat
  rsyncExit : String → Nat

/-- The per-file outcome a `push` iteration logs (cli.py lines 572-618). -/
inductive PushOutcome where
  | local_missing
  | remote_dir_failed
  | transfer_failed
  | pushed
deriving DecidableEq

/-- The decision chain of one `push` iteration (cli.py lines 575-618):
local existence, then `mkdir -p`, then `rsync`. -/
def pushOutcomeOf (w : PushWorld) (name : String) : PushOutcome :=
  if ¬ w.localExists name then .local_missing
  else if w.mkdirExit name ≠ 0 then .remote_dir_failed
  else if w.rsyncExit name ≠ 0 then .transfer_failed
  else .pushed

/-- `manifest_data["datasets"][filename][remote_key] = relative_path`
(cli.py line 615 and 468). -/
def setRemote (ds : Dict Entry) (name rk rel : String) : Dict Entry :=
  match dictFind ds name with
  | some e => dictInsert ds name (dictInsert e rk (Val.str rel))
  | none => ds

/-- The `push` loop (cli.py lines 571-618), threading the datasets mapping
and the `manifest_updated` flag and recording per-file outcomes. -/
def pushLoop (w : PushWorld) (uuid rk : String) :
    Dict Entry → List String → Dict Entry × Bool × List (String × PushOutcome)
  | ds, [] => (ds, false, [])
  | ds, name :: rest =>
    let oc := pushOutcomeOf w name
    let ds1 := if oc = .pushed then setRemote ds name rk (uuid ++ "/" ++ name)
               else ds
    let r2 := pushLoop w uuid rk ds1 rest
    (r2.1, (decide (oc = .pushed) || r2.2.1), (name, oc) :: r2.2.2)

/-- `files_to_push` / `files_to_pull` (cli.py lines 546-556 and 391-401):
explicit names filtered to those present in `datasets`, or all dataset
names. -/
def selectFiles (ds : Dict Entry) (filenames : List String) : List String :=
  if filenames = [] then ds.map (fun p => p.1)
  else filenames.filter (fun f => (dictFind ds f).isSome)

/-- `required_keys = ["uname", "url", "base_path"]` check
(cli.py lines 527-531). -/
def hasRequiredKeys (cfg : Dict Val) : Bool :=
  ["uname", "url", "base_path"].all (fun k => (dictFind cfg k).isSome)

/-- The observable result of a non-fatal `push` run. -/
structure PushResult where
  datasets : Dict Entry
  wrote : Bool
  outcomes : List (String × PushOutcome)
  exitCode : Nat
deriving DecidableEq

/-- The `push` command (cli.py lines 490-628) on a loaded manifest;
`Except.error ()` models `sys.exit(1)` on the structural checks (missing
remote profile, incomplete profile, empty datasets, empty selection, missing
manifest UUID).  The manifest file is rewritten iff `wrote`
(cli.py lines 621-624). -/
def pushM (w : PushWorld) (m : Manifest) (filenames : List String)
    (remote : String) : Except Unit PushResult :=
  let remote_key := "remote@" ++ remote
  match dictFind m.remotes remote_key with
  | none => .error ()
  | some cfg =>
    if hasRequiredKeys cfg then
      if m.datasets.isEmpty then .error ()
      else
        let files := selectFiles m.datasets filenames
        if files = [] then .error ()
        else
          match m.manifest_uuid with
          | none => .error ()
          | some uuid =>
            let res := pushLoop w uuid remote_key m.datasets files
            .ok { datasets := res.1, wrote := res.2.1, outcomes := res.2.2,
                  exitCode := 0 }
    else .error ()

/- ----------------------------------------------------------------------
Lemmas about the `push` loop.
---------------------------------------------------------------------- -/

theorem setRemote_find_ne (ds : Dict Entry) (name rk rel n : String)
    (h : name ≠ n) : dictFind (setRemote ds name rk rel) n = dictFind ds n := by
  unfold setRemote
  cases dictFind ds name with
  | none => rfl
  | some e => exact dictFind_dictInsert_ne _ _ _ _ h

theorem setRemote_find_self (ds : Dict Entry) (name rk rel : String) (e : Entry)
    (he : dictFind ds name = some e) :
    dictFind (setRemote ds name rk rel) name =
      some (dictInsert e rk (Val.str rel)) := by
  unfold setRemote
  rw [he]
  exact dictFind_dictInsert_self _ _ _

/-- The `manifest_updated` flag after the push loop: true iff some selected
file's transfer succeeded. -/
theorem pushLoop_dirty (w : PushWorld) (uuid rk : String)
    (files : List String) :
    ∀ ds, (pushLoop w uuid rk ds files).2.1 =
      files.any (fun n => decide (pushOutcomeOf w n = .pushed)) := by
  induction files with
  | nil => intro ds; simp [pushLoop]
  | cons h rest ih => intro ds; simp [pushLoop, ih]

/-- Every selected file is processed and logged, in order, with the outcome
the decision chain assigns it. -/
theorem pushLoop_outcomes (w : PushWorld) (uuid rk : String)
    (files : List String) :
    ∀ ds, (pushLoop w uuid rk ds files).2.2 =
      files.map (fun n => (n, pushOutcomeOf w n)) := by
  induction files with
  | nil => intro ds; simp [pushLoop]
  | cons h rest ih => intro ds; simp [pushLoop, ih]

theorem pushLoop_cons_fst (w : PushWorld) (uuid rk : String)
    (ds : Dict Entry) (h : String) (rest : List String) :
    (pushLoop w uuid rk ds (h :: rest)).1 =
      (pushLoop w uuid rk
        (if pushOutcomeOf w h = .pushed
         then setRemote ds h rk (uuid ++ "/" ++ h) else ds) rest).1 := rfl

/-- Final per-name state of the datasets mapping after the push loop: the
remote-path field is written for pushed names, everything else untouched. -/
theorem pushLoop_find (w : PushWorld) (uuid rk : String) (files : List String) :
    ∀ ds name, dictFind (pushLoop w uuid rk ds files).1 name =
      if name ∈ files ∧ pushOutcomeOf w name = .pushed then
        (dictFind ds name).map
          (fun e => dictInsert e rk (Val.str (uuid ++ "/" ++ name)))
      else dictFind ds name := by
  induction files with
  | nil => intro ds name; simp [pushLoop]
  | cons h rest ih =>
    intro ds name
    by_cases heq : h = name
    · subst heq
      by_cases hoc : pushOutcomeOf w h = .pushed
      · rw [pushLoop_cons_fst, if_pos hoc, ih _ h]
        cases he : dictFind ds h with
        | none =>
          have hset : setRemote ds h rk (uuid ++ "/" ++ h) = ds := by
            unfold setRemote; rw [he]
          rw [hset, he]
          simp [he, hoc]
        | some e =>
          rw [setRemote_find_self ds h rk _ e he]
          by_cases hmem : h ∈ rest
          · simp [hmem, hoc, dictInsert_dictInsert_same]
          · simp [hmem, hoc]
      · rw [pushLoop_cons_fst, if_neg hoc, ih ds h]
        simp [hoc]
    · have hne : h ≠ name := heq
      have hnm : ¬ name = h := fun h' => hne h'.symm
      rw [pushLoop_cons_fst, ih _ name]
      have hd : dictFind (if pushOutcomeOf w h = .pushed
          then setRemote ds h rk (uuid ++ "/" ++ h) else ds) name
          = dictFind ds name := by
        split
        · exact setRemote_find_ne ds h rk _ name hne
        · rfl
      rw [hd]
      simp [List.mem_cons, hnm]

/-- C1: in a non-fatal `push` run, each selected file's `remote@<id>` field
is set to `<manifest_id>/<name>` exactly when its transfer succeeded; on any
per-file failure (local missing, mkdir failed, rsync failed) the entry is
left unchanged and the file still gets an outcome (processing continues),
the exit code stays 0, and the manifest is written back iff at least one
file was pushed. -/
theorem push_field_iff (w : PushWorld) (m : Manifest)
    (filenames : List String) (remote : String) (r : PushResult)
    (hok : pushM w m filenames remote = .ok r) :
    ∃ uuid, m.manifest_uuid = some uuid ∧
      r.outcomes = (selectFiles m.datasets filenames).map
        (fun n => (n, pushOutcomeOf w n)) ∧
      (∀ name e0, name ∈ selectFiles m.datasets filenames →
        dictFind m.datasets name = some e0 →
        (pushOutcomeOf w name = .pushed →
          dictFind r.datasets name =
            some (dictInsert e0 ("remote@" ++ remote)
              (Val.str (uuid ++ "/" ++ name)))) ∧
        (pushOutcomeOf w name ≠ .pushed →
          dictFind r.datasets name = some e0)) ∧
      (∀ name, name ∉ selectFiles m.datasets filenames →
        dictFind r.datasets name = dictFind m.datasets name) ∧
      r.wrote = (selectFiles m.datasets filenames).any
        (fun n => decide (pushOutcomeOf w n = .pushed)) ∧
      r.exitCode = 0 := by
  simp only [pushM] at hok
  split at hok
  · exact absurd hok (by simp)
  · split at hok
    · split at hok
      · exact absurd hok (by simp)
      · split at hok
        · exact absurd hok (by simp)
        · split at hok
          · exact absurd hok (by simp)
          · rename_i uuid huuid
            simp only [Except.ok.injEq] at hok
            subst hok
            refine ⟨uuid, huuid, pushLoop_outcomes w uuid _ _ m.datasets,
                    ?_, ?_, pushLoop_dirty w uuid _ _ m.datasets, rfl⟩
            · intro name e0 hmem he0
              constructor
              · intro hoc
                rw [pushLoop_find w uuid _ _ m.datasets name,
                    if_pos ⟨hmem, hoc⟩, he0]
                rfl
              · intro hoc
                rw [pushLoop_find w uuid _ _ m.datasets name,
                    if_neg (fun hc => hoc hc.2), he0]
            · intro name hmem
              rw [pushLoop_find w uuid _ _ m.datasets name,
                  if_neg (fun hc => hmem hc.1)]
    · exact absurd hok (by simp)

/-- Scenario B fixture: remote directory creation fails for `a.txt` only. -/
def wScenB : PushWorld :=
  ⟨fun _ => true, fun n => if n = "a.txt" then 1 else 0, fun _ => 0⟩

/-- Scenario B fixture: two tracked files, one remote profile. -/
def mScenB : Manifest :=
  ⟨some "u",
   [("a.txt", [("sha256", Val.str "x")]), ("b.txt", [("sha256", Val.str "y")])],
   [("remote@1", [("uname", Val.str "me"), ("url", Val.str "host"),
                  ("base_path", Val.str "/p")])]⟩

/-- Scenario B expected result. -/
def rScenB : PushResult :=
  ⟨[("a.txt", [("sha256", Val.str "x")]),
    ("b.txt", [("sha256", Val.str "y"), ("remote@1", Val.str "u/b.txt")])],
   true,
   [("a.txt", .remote_dir_failed), ("b.txt", .pushed)], 0⟩

/-- Witness for C1: the file with the failed directory creation keeps its
entry unchanged, the other file is pushed and gets its remote path, the
manifest is written, the exit code is 0. -/
theorem push_field_iff_witness :
    pushM wScenB mScenB [] "1" = .ok rScenB ∧
    dictFind rScenB.datasets "a.txt" = some [("sha256", Val.str "x")] ∧
    dictFind rScenB.datasets "b.txt" =
      some [("sha256", Val.str "y"), ("remote@1", Val.str "u/b.txt")] ∧
    rScenB.wrote = true ∧ rScenB.exitCode = 0 := by
  obtain ⟨uuid, hu, houts, hname, hnotin, hwrote, hexit⟩ :=
    push_field_iff wScenB mScenB [] "1" rScenB rfl
  have hu' : uuid = "u" := by
    have : some uuid = some "u" := hu.symm.trans rfl
    exact Option.some_injective _ this
  subst hu'
  refine ⟨rfl, ?_, ?_, ?_, hexit⟩
  · exact ((hname "a.txt" [("sha256", Val.str "x")] (by decide) rfl).2
      (by decide)).trans rfl
  · exact ((hname "b.txt" [("sha256", Val.str "y")] (by decide) rfl).1
      (by decide)).trans (by decide)
  · exact hwrote.trans (by decide)

/- ----------------------------------------------------------------------
The `pull` command (cli.py lines 335-487).

The environment is an oracle `PullWorld` recording, per filename, the exit
status of the `ssh ... ls` existence check, the exit status of the `rsync`
download, whether the local file exists after the download, and the digest
`calculate_sha256` computes for it.
---------------------------------------------------------------------- -/

/-- The environment a `pull` run observes, per filename. -/
structure PullWorld where
  existsExit : String → Nat
  rsyncExit : String → Nat
  localAfter : String → Bool
  localSha : String → String

/-- The per-file outcome a `pull` iteration logs (cli.py lines 420-473):
`remote_missing` (line 438), `transfer_failed` (line 473), `vanished`
(rsync succeeded but the file is absent locally, line 471), `verified`
(line 460) and `integrity_mismatch` (line 463). -/
inductive PullOutcome where
  | remote_missing
  | transfer_failed
  | vanished
  | verified
  | integrity_mismatch
deriving DecidableEq

/-- The decision chain of one `pull` iteration (cli.py lines 428-471), as a
function of the expected digest read from the entry (line 422). -/
def pullOutcomeOf (w : PullWorld) (expected : Val) (name : String) :
    PullOutcome :=
  if w.existsExit name ≠ 0 then .remote_missing
  else if w.rsyncExit name ≠ 0 then .transfer_failed
  else if w.localAfter name then
    if Val.str (w.localSha name) = expected then .verified
    else .integrity_mismatch
  else .vanished

/-- One `pull` iteration (cli.py lines 420-473): on a completed download
(verified or mismatched) the remote-path field is recorded; on any other
outcome the datasets mapping is untouched. -/
def pullStep (w : PullWorld) (uuid rk : String) (ds : Dict Entry)
    (name : String) : Dict Entry × PullOutcome :=
  let oc := pullOutcomeOf w (entrySha ds name) name
  if oc = .verified ∨ oc = .integrity_mismatch then
    (setRemote ds name rk (uuid ++ "/" ++ name), oc)
  else (ds, oc)

/-- The accumulator of the `pull` loop: datasets, `manifest_updated`, and
the `pulled_count` (mismatches, line 464), `unchanged_count` (verified,
line 461) and `missing_count` (line 439) counters. -/
structure PullAcc where
  ds : Dict Entry
  dirty : Bool
  pulled : Nat
  unchanged : Nat
  missing : Nat
  outcomes : List (String × PullOutcome)
deriving DecidableEq

/-- The `pull` loop (cli.py lines 419-473). -/
def pullLoop (w : PullWorld) (uuid rk : String) :
    Dict Entry → List String → PullAcc
  | ds, [] => ⟨ds, false, 0, 0, 0, []⟩
  | ds, name :: rest =>
    let s := pullStep w uuid rk ds name
    let r2 := pullLoop w uuid rk s.1 rest
    ⟨r2.ds,
     decide (s.2 = .verified ∨ s.2 = .integrity_mismatch) || r2.dirty,
     (if s.2 = .integrity_mismatch then 1 else 0) + r2.pulled,
     (if s.2 = .verified then 1 else 0) + r2.unchanged,
     (if s.2 = .remote_missing then 1 else 0) + r2.missing,
     (name, s.2) :: r2.outcomes⟩

/-- The observable result of a non-fatal `pull` run. -/
structure PullResult where
  datasets : Dict Entry
  wrote : Bool
  pulled : Nat
  unchanged : Nat
  missing : Nat
  outcomes : List (String × PullOutcome)
  exitCode : Nat
deriving DecidableEq

/-- The `pull` command (cli.py lines 335-487) on a loaded manifest.  The
structural checks (remote profile, required keys, datasets, selection,
manifest UUID) abort with `sys.exit(1)`, modelled `Except.error ()`; the
manifest file is rewritten iff `wrote` (cli.py lines 476-479). -/
def pullM (w : PullWorld) (m : Manifest) (filenames : List String)
    (remote : String) : Except Unit PullResult :=
  let remote_key := "remote@" ++ remote
  match dictFind m.remotes remote_key with
  | none => .error ()
  | some cfg =>
    if hasRequiredKeys cfg then
      if m.datasets.isEmpty then .error ()
      else
        let files := selectFiles m.datasets filenames
        if files = [] then .error ()
        else
          match m.manifest_uuid with
          | none => .error ()
          | some uuid =>
            let res := pullLoop w uuid remote_key m.datasets files
            .ok { datasets := res.ds, wrote := res.dirty,
                  pulled := res.pulled, unchanged := res.unchanged,
                  missing := res.missing, outcomes := res.outcomes,
                  exitCode := 0 }
    else .error ()

/- ----------------------------------------------------------------------
Lemmas about the `pull` loop.  The remote key `remote@<id>` is never the
`sha256` key, so recording remote paths preserves every stored digest.
---------------------------------------------------------------------- -/

theorem remoteKey_ne_sha (remote : String) : "remote@" ++ remote ≠ "sha256" := by
  intro h
  have hlen := congrArg String.length h
  rw [String.length_append] at hlen
  have h7 : ("remote@" : String).length = 7 := rfl
  have h6 : ("sha256" : String).length = 6 := rfl
  omega

theorem list_any_congr {α : Type} (l : List α) (f g : α → Bool)
    (h : ∀ a ∈ l, f a = g a) : l.any f = l.any g := by
  induction l with
  | nil => rfl
  | cons x xs ih =>
    simp only [List.any_cons, h x (List.mem_cons_self x xs),
      ih fun a ha => h a (List.mem_cons_of_mem x ha)]

theorem setRemote_entrySha (ds : Dict Entry) (name rk rel n : String)
    (hrk : rk ≠ "sha256") :
    entrySha (setRemote ds name rk rel) n = entrySha ds n := by
  by_cases heq : name = n
  · subst heq
    unfold setRemote entrySha
    cases he : dictFind ds name with
    | none => rw [he]
    | some e =>
      rw [dictFind_dictInsert_self]
      simp only [Option.map_some', Option.getD_some]
      rw [dictFind_dictInsert_ne e rk "sha256" (Val.str rel) hrk]
  · unfold entrySha
    rw [setRemote_find_ne ds name rk rel n heq]

theorem pullStep_snd (w : PullWorld) (uuid rk : String) (ds : Dict Entry)
    (name : String) :
    (pullStep w uuid rk ds name).2 =
      pullOutcomeOf w (entrySha ds name) name := by
  simp only [pullStep]
  split <;> rfl

theorem pullStep_fst_entrySha (w : PullWorld) (uuid rk : String)
    (ds : Dict Entry) (name n : String) (hrk : rk ≠ "sha256") :
    entrySha (pullStep w uuid rk ds name).1 n = entrySha ds n := by
  simp only [pullStep]
  split
  · exact setRemote_entrySha ds name rk _ n hrk
  · rfl

/-- Every selected file is processed and logged, in order, with the outcome
the decision chain assigns it against its original stored digest. -/
theorem pullLoop_outcomes (w : PullWorld) (uuid rk : String)
    (hrk : rk ≠ "sha256") (files : List String) :
    ∀ ds, (pullLoop w uuid rk ds files).outcomes =
      files.map (fun n => (n, pullOutcomeOf w (entrySha ds n) n)) := by
  induction files with
  | nil => intro ds; simp [pullLoop]
  | cons h rest ih =>
    intro ds
    have htail : (pullLoop w uuid rk (pullStep w uuid rk ds h).1 rest).outcomes
        = rest.map (fun n => (n, pullOutcomeOf w (entrySha ds n) n)) := by
      rw [ih]
      exact List.map_congr_left fun n _ => by
        rw [pullStep_fst_entrySha w uuid rk ds h n hrk]
    simp only [pullLoop, List.map_cons, pullStep_snd, htail]

/-- The counters aggregate exactly the per-file outcomes: `pulled_count`
counts mismatches, `unchanged_count` verified files, `missing_count` files
absent on the remote. -/
theorem pullLoop_counts (w : PullWorld) (uuid rk : String)
    (hrk : rk ≠ "sha256") (files : List String) :
    ∀ ds,
      (pullLoop w uuid rk ds files).pulled = files.countP
        (fun n => decide (pullOutcomeOf w (entrySha ds n) n =
          .integrity_mismatch)) ∧
      (pullLoop w uuid rk ds files).unchanged = files.countP
        (fun n => decide (pullOutcomeOf w (entrySha ds n) n = .verified)) ∧
      (pullLoop w uuid rk ds files).missing = files.countP
        (fun n => decide (pullOutcomeOf w (entrySha ds n) n =
          .remote_missing)) := by
  induction files with
  | nil => intro ds; simp [pullLoop]
  | cons h rest ih =>
    intro ds
    have hcongr : ∀ oc : PullOutcome, rest.countP
        (fun n => decide (pullOutcomeOf w
          (entrySha (pullStep w uuid rk ds h).1 n) n = oc)) =
        rest.countP
        (fun n => decide (pullOutcomeOf w (entrySha ds n) n = oc)) := by
      intro oc
      exact List.countP_congr fun n _ => by
        rw [pullStep_fst_entrySha w uuid rk ds h n hrk]
    obtain ⟨ih1, ih2, ih3⟩ := ih (pullStep w uuid rk ds h).1
    refine ⟨?_, ?_, ?_⟩
    · simp only [pullLoop, ih1, hcongr, pullStep_snd, List.countP_cons]
      rw [Nat.add_comm]
      simp
    · simp only [pullLoop, ih2, hcongr, pullStep_snd, List.countP_cons]
      rw [Nat.add_comm]
      simp
    · simp only [pullLoop, ih3, hcongr, pullStep_snd, List.countP_cons]
      rw [Nat.add_comm]
      simp

/-- The `manifest_updated` flag after the pull loop: true iff some selected
file's download completed (verified or mismatched). -/
theorem pullLoop_dirty (w : PullWorld) (uuid rk : String)
    (hrk : rk ≠ "sha256") (files : List String) :
    ∀ ds, (pullLoop w uuid rk ds files).dirty = files.any
      (fun n => decide (pullOutcomeOf w (entrySha ds n) n = .verified ∨
        pullOutcomeOf w (entrySha ds n) n = .integrity_mismatch)) := by
  induction files with
  | nil => intro ds; simp [pullLoop]
  | cons h rest ih =>
    intro ds
    have htail : (pullLoop w uuid rk (pullStep w uuid rk ds h).1 rest).dirty
        = rest.any (fun n => decide
            (pullOutcomeOf w (entrySha ds n) n = .verified ∨
             pullOutcomeOf w (entrySha ds n) n = .integrity_mismatch)) := by
      rw [ih]
      exact list_any_congr rest _ _ fun n _ => by
        rw [pullStep_fst_entrySha w uuid rk ds h n hrk]
    simp only [pullLoop, List.any_cons, pullStep_snd, htail]

theorem pullLoop_cons_ds (w : PullWorld) (uuid rk : String) (ds : Dict Entry)
    (h : String) (rest : List String) :
    (pullLoop w uuid rk ds (h :: rest)).ds =
      (pullLoop w uuid rk (pullStep w uuid rk ds h).1 rest).ds := rfl

/-- Final per-name state of the datasets mapping after the pull loop: the
remote-path field is written exactly for completed downloads. -/
theorem pullLoop_find (w : PullWorld) (uuid rk : String)
    (hrk : rk ≠ "sha256") (files : List String) :
    ∀ ds name, dictFind (pullLoop w uuid rk ds files).ds name =
      if name ∈ files ∧ (pullOutcomeOf w (entrySha ds name) name = .verified ∨
          pullOutcomeOf w (entrySha ds name) name = .integrity_mismatch) then
        (dictFind ds name).map
          (fun e => dictInsert e rk (Val.str (uuid ++ "/" ++ name)))
      else dictFind ds name := by
  induction files with
  | nil => intro ds name; simp [pullLoop]
  | cons h rest ih =>
    intro ds name
    have hsha : ∀ n, entrySha (pullStep w uuid rk ds h).1 n = entrySha ds n :=
      fun n => pullStep_fst_entrySha w uuid rk ds h n hrk
    by_cases heq : h = name
    · subst heq
      by_cases hoc : pullOutcomeOf w (entrySha ds h) h = .verified ∨
          pullOutcomeOf w (entrySha ds h) h = .integrity_mismatch
      · have hstep : (pullStep w uuid rk ds h).1 =
            setRemote ds h rk (uuid ++ "/" ++ h) := by
          simp only [pullStep]
          rw [if_pos hoc]
        have hc : entrySha (setRemote ds h rk (uuid ++ "/" ++ h)) h =
            entrySha ds h := setRemote_entrySha ds h rk _ h hrk
        rw [pullLoop_cons_ds, hstep, ih _ h, hc]
        cases he : dictFind ds h with
        | none =>
          have hset : setRemote ds h rk (uuid ++ "/" ++ h) = ds := by
            unfold setRemote; rw [he]
          rw [hset, he]
          simp [hoc]
        | some e =>
          rw [setRemote_find_self ds h rk _ e he]
          by_cases hmem : h ∈ rest
          · simp [hmem, hoc, dictInsert_dictInsert_same, he]
          · simp [hmem, hoc, he]
      · have hstep : (pullStep w uuid rk ds h).1 = ds := by
          simp only [pullStep]
          rw [if_neg hoc]
        rw [pullLoop_cons_ds, hstep, ih ds h]
        simp [hoc]
    · have hne : h ≠ name := heq
      have hnm : ¬ name = h := fun h' => hne h'.symm
      have hd : dictFind (pullStep w uuid rk ds h).1 name = dictFind ds name := by
        simp only [pullStep]
        split
        · exact setRemote_find_ne ds h rk _ name hne
        · rfl
      rw [pullLoop_cons_ds, ih _ name, hd, hsha name]
      simp [List.mem_cons, hnm]

/-- Inversion of a non-fatal `pull` run: the manifest UUID exists, every
result field is the corresponding pull-loop aggregate, and whether the run
is fatal does not depend on the remote environment at all. -/
theorem pullM_ok_inv (w : PullWorld) (m : Manifest) (filenames : List String)
    (remote : String) (r : PullResult)
    (hok : pullM w m filenames remote = .ok r) :
    ∃ uuid, m.manifest_uuid = some uuid ∧
      r = { datasets := (pullLoop w uuid ("remote@" ++ remote) m.datasets
              (selectFiles m.datasets filenames)).ds,
            wrote := (pullLoop w uuid ("remote@" ++ remote) m.datasets
              (selectFiles m.datasets filenames)).dirty,
            pulled := (pullLoop w uuid ("remote@" ++ remote) m.datasets
              (selectFiles m.datasets filenames)).pulled,
            unchanged := (pullLoop w uuid ("remote@" ++ remote) m.datasets
              (selectFiles m.datasets filenames)).unchanged,
            missing := (pullLoop w uuid ("remote@" ++ remote) m.datasets
              (selectFiles m.datasets filenames)).missing,
            outcomes := (pullLoop w uuid ("remote@" ++ remote) m.datasets
              (selectFiles m.datasets filenames)).outcomes,
            exitCode := 0 } ∧
      ∀ w2 : PullWorld, ∃ r2, pullM w2 m filenames remote = .ok r2 := by
  simp only [pullM] at hok
  split at hok
  · exact absurd hok (by simp)
  · rename_i cfg hcfg
    split at hok
    · rename_i hkeys
      split at hok
      · exact absurd hok (by simp)
      · rename_i hempty
        split at hok
        · exact absurd hok (by simp)
        · rename_i hfiles
          split at hok
          · exact absurd hok (by simp)
          · rename_i uuid huuid
            simp only [Except.ok.injEq] at hok
            refine ⟨uuid, huuid, hok.symm, ?_⟩
            intro w2
            refine ⟨{ datasets := (pullLoop w2 uuid ("remote@" ++ remote)
                        m.datasets (selectFiles m.datasets filenames)).ds,
                      wrote := (pullLoop w2 uuid ("remote@" ++ remote)
                        m.datasets (selectFiles m.datasets filenames)).dirty,
                      pulled := (pullLoop w2 uuid ("remote@" ++ remote)
                        m.datasets (selectFiles m.datasets filenames)).pulled,
                      unchanged := (pullLoop w2 uuid ("remote@" ++ remote)
                        m.datasets (selectFiles m.datasets filenames)).unchanged,
                      missing := (pullLoop w2 uuid ("remote@" ++ remote)
                        m.datasets (selectFiles m.datasets filenames)).missing,
                      outcomes := (pullLoop w2 uuid ("remote@" ++ remote)
                        m.datasets (selectFiles m.datasets filenames)).outcomes,
                      exitCode := 0 }, ?_⟩
            simp [pullM, hcfg, hkeys, hempty, hfiles, huuid]
    · exact absurd hok (by simp)

/-- C2: when a selected file's download succeeds but the re-computed digest
differs from the stored one, the outcome is only the warning
`integrity_mismatch`: the remote-path field is still recorded as
`<manifest_id>/<name>`, the manifest is dirty (persisted at the end), and
the exit code is 0. -/
theorem pull_integrity_mismatch (w : PullWorld) (m : Manifest)
    (filenames : List String) (remote : String) (r : PullResult)
    (name : String) (e0 : Entry)
    (hok : pullM w m filenames remote = .ok r)
    (hmem : name ∈ selectFiles m.datasets filenames)
    (he0 : dictFind m.datasets name = some e0)
    (hex : w.existsExit name = 0)
    (hrs : w.rsyncExit name = 0)
    (hla : w.localAfter name = true)
    (hne : Val.str (w.localSha name) ≠ (dictFind e0 "sha256").getD (.str "")) :
    ∃ uuid, m.manifest_uuid = some uuid ∧
      (name, PullOutcome.integrity_mismatch) ∈ r.outcomes ∧
      dictFind r.datasets name = some (dictInsert e0 ("remote@" ++ remote)
        (Val.str (uuid ++ "/" ++ name))) ∧
      r.wrote = true ∧ r.exitCode = 0 := by
  obtain ⟨uuid, huuid, hr, _⟩ := pullM_ok_inv w m filenames remote r hok
  subst hr
  have hrk := remoteKey_ne_sha remote
  have hshaN : entrySha m.datasets name =
      (dictFind e0 "sha256").getD (.str "") := by
    unfold entrySha
    rw [he0]
    rfl
  have hoc : pullOutcomeOf w (entrySha m.datasets name) name =
      .integrity_mismatch := by
    unfold pullOutcomeOf
    rw [hshaN]
    simp [hex, hrs, hla, hne]
  refine ⟨uuid, huuid, ?_, ?_, ?_, rfl⟩
  · rw [pullLoop_outcomes w uuid _ hrk _ m.datasets]
    exact List.mem_map.mpr ⟨name, hmem, by rw [hoc]⟩
  · rw [pullLoop_find w uuid _ hrk _ m.datasets name,
        if_pos ⟨hmem, Or.inr hoc⟩, he0]
    rfl
  · rw [pullLoop_dirty w uuid _ hrk _ m.datasets]
    exact List.any_eq_true.mpr ⟨name, hmem, by simp [hoc]⟩

/-- Witness for C2 (scenario C): the downloaded bytes do not match the
stored digest; the pull still records the remote path, marks the manifest
dirty, and exits 0. -/
theorem pull_integrity_mismatch_witness :
    pullM ⟨fun _ => 0, fun _ => 0, fun _ => true, fun _ => "corrupt"⟩
        ⟨some "u", [("a.txt", [("sha256", Val.str "good")])],
         [("remote@1", [("uname", Val.str "me"), ("url", Val.str "host"),
                        ("base_path", Val.str "/p")])]⟩ [] "1"
      = .ok ⟨[("a.txt", [("sha256", Val.str "good"),
                         ("remote@1", Val.str "u/a.txt")])],
             true, 1, 0, 0, [("a.txt", .integrity_mismatch)], 0⟩ ∧
    ("a.txt", PullOutcome.integrity_mismatch) ∈
      [("a.txt", PullOutcome.integrity_mismatch)] ∧
    dictFind [("a.txt", [("sha256", Val.str "good"),
                         ("remote@1", Val.str "u/a.txt")])] "a.txt"
      = some [("sha256", Val.str "good"), ("remote@1", Val.str "u/a.txt")] := by
  obtain ⟨uuid, huuid, hmemOut, hfind, hwr, hexit⟩ := pull_integrity_mismatch
    ⟨fun _ => 0, fun _ => 0, fun _ => true, fun _ => "corrupt"⟩
    ⟨some "u", [("a.txt", [("sha256", Val.str "good")])],
     [("remote@1", [("uname", Val.str "me"), ("url", Val.str "host"),
                    ("base_path", Val.str "/p")])]⟩ [] "1"
    ⟨[("a.txt", [("sha256", Val.str "good"),
                 ("remote@1", Val.str "u/a.txt")])],
     true, 1, 0, 0, [("a.txt", .integrity_mismatch)], 0⟩
    "a.txt" [("sha256", Val.str "good")]
    rfl (by decide) rfl rfl rfl rfl (by decide)
  exact ⟨rfl, hmemOut, by decide⟩

/-- C8: a non-zero exit status of the remote existence check is treated as
"remote file absent": the file is logged `remote_missing`, its entry is
untouched, every selected file is still processed, the exit code is 0, and
no remote environment can turn the structural checks fatal (fatality is
independent of the remote's answers). -/
theorem pull_remote_missing_nonfatal (w : PullWorld) (m : Manifest)
    (filenames : List String) (remote : String) (r : PullResult)
    (name : String)
    (hok : pullM w m filenames remote = .ok r)
    (hmem : name ∈ selectFiles m.datasets filenames)
    (hex : w.existsExit name ≠ 0) :
    (name, PullOutcome.remote_missing) ∈ r.outcomes ∧
    r.outcomes.length = (selectFiles m.datasets filenames).length ∧
    dictFind r.datasets name = dictFind m.datasets name ∧
    r.exitCode = 0 ∧
    ∀ w2 : PullWorld, ∃ r2, pullM w2 m filenames remote = .ok r2 := by
  obtain ⟨uuid, huuid, hr, hany⟩ := pullM_ok_inv w m filenames remote r hok
  subst hr
  have hrk := remoteKey_ne_sha remote
  have hoc : pullOutcomeOf w (entrySha m.datasets name) name =
      .remote_missing := by
    unfold pullOutcomeOf
    simp [hex]
  refine ⟨?_, ?_, ?_, rfl, hany⟩
  · rw [pullLoop_outcomes w uuid _ hrk _ m.datasets]
    exact List.mem_map.mpr ⟨name, hmem, by rw [hoc]⟩
  · rw [pullLoop_outcomes w uuid _ hrk _ m.datasets]
    exact List.length_map _ _
  · rw [pullLoop_find w uuid _ hrk _ m.datasets name,
        if_neg (fun hc => by
          rcases hc.2 with h | h <;> rw [hoc] at h <;> exact
            PullOutcome.noConfusion h)]

/-- Witness for C8: the existence check fails with exit status 2; the file
is reported missing, nothing is mutated, and the run is not fatal. -/
theorem pull_remote_missing_nonfatal_witness :
    pullM ⟨fun _ => 2, fun _ => 0, fun _ => false, fun _ => ""⟩
        ⟨some "u", [("a.txt", [("sha256", Val.str "good")])],
         [("remote@1", [("uname", Val.str "me"), ("url", Val.str "host"),
                        ("base_path", Val.str "/p")])]⟩ [] "1"
      = .ok ⟨[("a.txt", [("sha256", Val.str "good")])],
             false, 0, 0, 1, [("a.txt", .remote_missing)], 0⟩ ∧
    ("a.txt", PullOutcome.remote_missing) ∈
      [("a.txt", PullOutcome.remote_missing)] ∧
    dictFind [("a.txt", [("sha256", Val.str "good")])] "a.txt"
      = some [("sha256", Val.str "good")] := by
  obtain ⟨hmemOut, hlen, hfind, hexit, hany⟩ := pull_remote_missing_nonfatal
    ⟨fun _ => 2, fun _ => 0, fun _ => false, fun _ => ""⟩
    ⟨some "u", [("a.txt", [("sha256", Val.str "good")])],
     [("remote@1", [("uname", Val.str "me"), ("url", Val.str "host"),
                    ("base_path", Val.str "/p")])]⟩ [] "1"
    ⟨[("a.txt", [("sha256", Val.str "good")])],
     false, 0, 0, 1, [("a.txt", .remote_missing)], 0⟩
    "a.txt" rfl (by decide) (by decide)
  exact ⟨rfl, hmemOut, by decide⟩

/-- C9: when the copy reports success but the file is absent locally, only
the error is reported: no remote-path field is recorded, none of the
pulled/unchanged/missing counters counts that file, and the manifest is
written only if some other file completed a download. -/
theorem pull_vanished_no_record (w : PullWorld) (m : Manifest)
    (filenames : List String) (remote : String) (r : PullResult)
    (name : String)
    (hok : pullM w m filenames remote = .ok r)
    (hmem : name ∈ selectFiles m.datasets filenames)
    (hex : w.existsExit name = 0)
    (hrs : w.rsyncExit name = 0)
    (hla : w.localAfter name = false) :
    pullOutcomeOf w (entrySha m.datasets name) name = .vanished ∧
    (name, PullOutcome.vanished) ∈ r.outcomes ∧
    dictFind r.datasets name = dictFind m.datasets name ∧
    r.pulled = (selectFiles m.datasets filenames).countP
      (fun n => decide (pullOutcomeOf w (entrySha m.datasets n) n =
        .integrity_mismatch)) ∧
    r.unchanged = (selectFiles m.datasets filenames).countP
      (fun n => decide (pullOutcomeOf w (entrySha m.datasets n) n =
        .verified)) ∧
    r.missing = (selectFiles m.datasets filenames).countP
      (fun n => decide (pullOutcomeOf w (entrySha m.datasets n) n =
        .remote_missing)) ∧
    r.wrote = (selectFiles m.datasets filenames).any
      (fun n => decide (pullOutcomeOf w (entrySha m.datasets n) n =
        .verified ∨ pullOutcomeOf w (entrySha m.datasets n) n =
        .integrity_mismatch)) ∧
    r.exitCode = 0 := by
  obtain ⟨uuid, huuid, hr, _⟩ := pullM_ok_inv w m filenames remote r hok
  subst hr
  have hrk := remoteKey_ne_sha remote
  have hoc : pullOutcomeOf w (entrySha m.datasets name) name = .vanished := by
    unfold pullOutcomeOf
    simp [hex, hrs, hla]
  obtain ⟨hc1, hc2, hc3⟩ := pullLoop_counts w uuid _ hrk
    (selectFiles m.datasets filenames) m.datasets
  refine ⟨hoc, ?_, ?_, hc1, hc2, hc3,
    pullLoop_dirty w uuid _ hrk _ m.datasets, rfl⟩
  · rw [pullLoop_outcomes w uuid _ hrk _ m.datasets]
    exact List.mem_map.mpr ⟨name, hmem, by rw [hoc]⟩
  · rw [pullLoop_find w uuid _ hrk _ m.datasets name,
        if_neg (fun hc => by
          rcases hc.2 with h | h <;> rw [hoc] at h <;> exact
            PullOutcome.noConfusion h)]

/-- Witness for C9: rsync exits 0 but the local file is missing; nothing is
recorded or counted and the manifest is not written. -/
theorem pull_vanished_no_record_witness :
    pullM ⟨fun _ => 0, fun _ => 0, fun _ => false, fun _ => ""⟩
        ⟨some "u", [("a.txt", [("sha256", Val.str "good")])],
         [("remote@1", [("uname", Val.str "me"), ("url", Val.str "host"),
                        ("base_path", Val.str "/p")])]⟩ [] "1"
      = .ok ⟨[("a.txt", [("sha256", Val.str "good")])],
             false, 0, 0, 0, [("a.txt", .vanished)], 0⟩ ∧
    ("a.txt", PullOutcome.vanished) ∈ [("a.txt", PullOutcome.vanished)] ∧
    dictFind [("a.txt", [("sha256", Val.str "good")])] "a.txt"
      = some [("sha256", Val.str "good")] := by
  obtain ⟨hoc, hmemOut, hfind, hc1, hc2, hc3, hwr, hexit⟩ :=
    pull_vanished_no_record
    ⟨fun _ => 0, fun _ => 0, fun _ => false, fun _ => ""⟩
    ⟨some "u", [("a.txt", [("sha256", Val.str "good")])],
     [("remote@1", [("uname", Val.str "me"), ("url", Val.str "host"),
                    ("base_path", Val.str "/p")])]⟩ [] "1"
    ⟨[("a.txt", [("sha256", Val.str "good")])],
     false, 0, 0, 0, [("a.txt", .vanished)], 0⟩
    "a.txt" rfl (by decide) rfl rfl rfl
  exact ⟨rfl, hmemOut, by decide⟩

/- ----------------------------------------------------------------------
C3: manifest-identifier backward compatibility.

The claim says every mutating operation (add, push, pull) generates and
persists a missing `manifest_uuid`.  In the source only `add` generates one
(cli.py lines 274-277); `push` and `pull` abort with exit code 1 on a
manifest lacking the UUID (lines 562-566 and 413-417), and `add` persists
the generated UUID only when some file was added or updated (lines 321-324).
---------------------------------------------------------------------- -/

/-- Counterexample to C3 as stated: a `push` over a legacy manifest lacking
`manifest_uuid` (with a complete remote profile and a nonempty dataset
selection) exits fatally instead of generating an identifier. -/
theorem push_no_uuid_counterexample :
    pushM ⟨fun _ => true, fun _ => 0, fun _ => 0⟩
      ⟨none, [("a.txt", [("sha256", Val.str "x")])],
       [("remote@1", [("uname", Val.str "me"), ("url", Val.str "host"),
                      ("base_path", Val.str "/p")])]⟩ [] "1"
      = .error () := rfl

/-- C3 amended: only `add` generates a fresh identifier for a manifest
lacking one, setting it in memory and persisting it exactly when the run
adds or updates at least one file, with pre-existing per-file fields of
existing entries retained; `push` and `pull` on such a manifest abort with
exit code 1 without generating anything. -/
theorem manifest_uuid_generation_amended :
    (∀ (w : FsWorld) (dir : String) (m : Manifest) (filenames : List String)
       (newUuid now : String) (r : AddResult), m.manifest_uuid = none →
       addM w dir m filenames newUuid now = .ok r →
       r.manifest_uuid = newUuid ∧
       (r.wrote = true ↔ 0 < r.added + r.updated)) ∧
    (∀ (w : FsWorld) (dir : String) (m : Manifest) (filenames : List String)
       (newUuid now : String) (r : AddResult) (name : String) (e0 : Entry)
       (k : String),
       addM w dir m filenames newUuid now = .ok r →
       dictFind m.datasets name = some e0 →
       k ≠ "sha256" → k ≠ "size_bytes" → k ≠ "size_human" → k ≠ "uploaded" →
       ∃ e2, dictFind r.datasets name = some e2 ∧
         dictFind e2 k = dictFind e0 k) ∧
    (∀ (w : PushWorld) (m : Manifest) (filenames : List String)
       (remote : String), m.manifest_uuid = none →
       pushM w m filenames remote = .error ()) ∧
    (∀ (w : PullWorld) (m : Manifest) (filenames : List String)
       (remote : String), m.manifest_uuid = none →
       pullM w m filenames remote = .error ()) := by
  refine ⟨?_, ?_, ?_, ?_⟩
  · intro w dir m filenames newUuid now r hnone hok
    simp only [addM] at hok
    split at hok
    · exact absurd hok (by simp)
    · simp only [Except.ok.injEq] at hok
      subst hok
      refine ⟨by simp [hnone], ?_⟩
      simp only [Bool.or_eq_true, decide_eq_true_eq]
      omega
  · intro w dir m filenames newUuid now r name e0 k hok he0 hk1 hk2 hk3 hk4
    simp only [addM] at hok
    split at hok
    · exact absurd hok (by simp)
    · simp only [Except.ok.injEq] at hok
      subst hok
      exact addLoop_frame w now _ m.datasets name e0 k he0 hk1 hk2 hk3 hk4
  · intro w m filenames remote hnone
    simp only [pushM, hnone]
    split
    · rfl
    · split
      · split
        · rfl
        · split
          · rfl
          · rfl
      · rfl
  · intro w m filenames remote hnone
    simp only [pullM, hnone]
    split
    · rfl
    · split
      · split
        · rfl
        · split
          · rfl
          · rfl
      · rfl

/-- Witness for the amended C3: an `add` over a legacy manifest with one
changed file sets and persists the fresh identifier; the same manifest makes
`push` and `pull` exit fatally. -/
theorem manifest_uuid_generation_amended_witness :
    (∃ r, addM ⟨fun _ => true, fun _ => false, fun _ => true, fun _ => "/d",
                fun _ => 5, fun _ => "new"⟩ "/d"
        ⟨none, [("a.txt", [("sha256", Val.str "x"),
                           ("uuid", Val.str "legacy-id")])], []⟩
        ["a.txt"] "fresh-id" "t0" = .ok r ∧
      r.manifest_uuid = "fresh-id" ∧ r.wrote = true ∧
      ∃ e2, dictFind r.datasets "a.txt" = some e2 ∧
        dictFind e2 "uuid" = some (Val.str "legacy-id")) ∧
    pushM ⟨fun _ => true, fun _ => 0, fun _ => 0⟩
      ⟨none, [("a.txt", [("sha256", Val.str "x")])],
       [("remote@1", [("uname", Val.str "me"), ("url", Val.str "host"),
                      ("base_path", Val.str "/p")])]⟩ [] "1" = .error () ∧
    pullM ⟨fun _ => 0, fun _ => 0, fun _ => true, fun _ => "s"⟩
      ⟨none, [("a.txt", [("sha256", Val.str "x")])],
       [("remote@1", [("uname", Val.str "me"), ("url", Val.str "host"),
                      ("base_path", Val.str "/p")])]⟩ [] "1" = .error () := by
  refine ⟨?_, ?_, ?_⟩
  · obtain ⟨hu, hw⟩ := manifest_uuid_generation_amended.1
      ⟨fun _ => true, fun _ => false, fun _ => true, fun _ => "/d",
       fun _ => 5, fun _ => "new"⟩ "/d"
      ⟨none, [("a.txt", [("sha256", Val.str "x"),
                         ("uuid", Val.str "legacy-id")])], []⟩
      ["a.txt"] "fresh-id" "t0" _ rfl rfl
    obtain ⟨e2, he2, hk⟩ := manifest_uuid_generation_amended.2.1
      ⟨fun _ => true, fun _ => false, fun _ => true, fun _ => "/d",
       fun _ => 5, fun _ => "new"⟩ "/d"
      ⟨none, [("a.txt", [("sha256", Val.str "x"),
                         ("uuid", Val.str "legacy-id")])], []⟩
      ["a.txt"] "fresh-id" "t0" _ "a.txt"
      [("sha256", Val.str "x"), ("uuid", Val.str "legacy-id")] "uuid"
      rfl rfl (by decide) (by decide) (by decide) (by decide)
    exact ⟨_, rfl, hu, hw.mpr (by decide), e2, he2, hk.trans (by decide)⟩
  · exact manifest_uuid_generation_amended.2.2.1
      ⟨fun _ => true, fun _ => 0, fun _ => 0⟩
      ⟨none, [("a.txt", [("sha256", Val.str "x")])],
       [("remote@1", [("uname", Val.str "me"), ("url", Val.str "host"),
                      ("base_path", Val.str "/p")])]⟩ [] "1" rfl
  · exact manifest_uuid_generation_amended.2.2.2
      ⟨fun _ => 0, fun _ => 0, fun _ => true, fun _ => "s"⟩
      ⟨none, [("a.txt", [("sha256", Val.str "x")])],
       [("remote@1", [("uname", Val.str "me"), ("url", Val.str "host"),
                      ("base_path", Val.str "/p")])]⟩ [] "1" rfl

end Dss
